import Mathlib

/-
Verification development for the `universal_versions` version-specifier core
(src/universal_versions/version_specifier.py).

Python strings are modelled as Lean `String` (a wrapper around `List Char`);
the string helper functions used by the source (`str.split`, `str.partition`,
the `in` substring test, f-strings) are embedded as structural recursions over
the character list, matching CPython semantics for the fixed separators the
source uses.  Python exceptions are modelled as an explicit `Err` value; the
constructor names follow the specification's error taxonomy (section 7), which
classifies the `ValueError`s raised by the code and its libraries
(MalformedSpecifierError, InvalidRangeError, ...), plus the built-in
`IndexError` / `TypeError` / `KeyError` exception kinds.  Fallible Python
functions become `Except Err` values.

The `semver` library (`Version.parse`, `to_tuple`, `bump_*`, `__str__`,
`compare`) is an external dependency of the source file; it is embedded
faithfully from python-semver's documented behaviour (the anchored semver
regex for `parse`, `_increment_string` for `bump_build`/`bump_prerelease`,
precedence comparison ignoring build metadata).  ASCII digits are used where
the Python regexes use `\d` / `[0-9]`.
-/

namespace UniversalVersions

/-- Error values raised by the modelled code.  In the Python source every
locally raised error is a `ValueError`; the spec's section 7 names the kinds,
and each constructor carries the exception message. -/
inductive Err where
  | malformedSpecifier (msg : String)
  | invalidRange (msg : String)
  | versionParse (msg : String)
  | noPessimisticBound (msg : String)
  | indexError (msg : String)
  | keyError (msg : String)
  | typeError (msg : String)
deriving DecidableEq, Repr

/-! ## Character-level string helpers (CPython semantics) -/

/-- Cons a character onto the first piece of a split result. -/
def consHead (c : Char) : List (List Char) → List (List Char)
  | [] => [[c]]
  | h :: t => (c :: h) :: t

/-- Python `s.split(ch)` for a one-character separator: split at every
occurrence, keeping empty pieces. -/
def splitOnChar (ch : Char) : List Char → List (List Char)
  | [] => [[]]
  | c :: rest => if c = ch then [] :: splitOnChar ch rest else consHead c (splitOnChar ch rest)

/-- Break a character list at the first occurrence of `ch`: returns the part
before it and, when `ch` occurs, everything after it. -/
def breakOnChar (ch : Char) : List Char → List Char × Option (List Char)
  | [] => ([], none)
  | c :: rest =>
    if c = ch then ([], some rest)
    else
      let p := breakOnChar ch rest
      (c :: p.1, p.2)

/-- Python `s.partition(ch)` collapsed to (head, optional tail): when the
separator is absent the head is the whole string and the tail is `none`. -/
def pyPartition (s : String) (ch : Char) : String × Option String :=
  let p := breakOnChar ch s.data
  (String.mk p.1, p.2.map String.mk)

/-- Python `"~>" in s`: does the two-character token occur as a substring. -/
def hasTokChars : List Char → Bool
  | [] => false
  | [_] => false
  | c1 :: c2 :: rest => (c1 = '~' && c2 = '>') || hasTokChars (c2 :: rest)

/-- Python `s.split("~>")`: split at every non-overlapping occurrence of the
two-character token, scanning left to right. -/
def splitTokChars : List Char → List (List Char)
  | [] => [[]]
  | [c] => [[c]]
  | c1 :: c2 :: rest =>
    if c1 = '~' && c2 = '>' then [] :: splitTokChars rest
    else consHead c1 (splitTokChars (c2 :: rest))

/-- String-level wrapper for the `"~>" in s` test. -/
def hasTok (s : String) : Bool := hasTokChars s.data

/-- String-level wrapper for `s.split("~>")`. -/
def splitTok (s : String) : List String := (splitTokChars s.data).map String.mk

/-- Modelled from the spec: `universal_versions.utils.remove_spaces` is not in
src/; per the spec (section 4.1) all whitespace is stripped from the range
expression string. -/
def remove_spaces (s : String) : String := String.mk (s.data.filter (fun c => !c.isWhitespace))

/-- Python `s.split(",")` at string level. -/
def pySplitChar (s : String) (ch : Char) : List String := (splitOnChar ch s.data).map String.mk

/-- Python truthiness / `or`-defaulting for an optional string:
`x or default` where `None` and `""` are falsy. -/
def pyOrStr (o : Option String) (d : String) : String :=
  match o with
  | some s => if s = "" then d else s
  | none => d

/-- Python falsiness of an optional string (`not x`): true for `None` and `""`. -/
def falsyOpt : Option String → Bool
  | none => true
  | some s => s = ""

/-- Python f-string rendering of an optional string: `None` prints as "None". -/
def pyFormatOpt : Option String → String
  | some s => s
  | none => "None"

/-! ## The semver `Version` external library -/

/-- Parsed semantic version, as stored by python-semver's `Version`:
three numeric components plus optional raw prerelease and build strings. -/
structure Version where
  major : Nat
  minor : Nat
  patch : Nat
  prerelease : Option String
  build : Option String
deriving DecidableEq, Repr

/-- Decimal value of a digit string (Python `int` on a digit-only string). -/
def decodeNat (l : List Char) : Nat := l.foldl (fun a c => a * 10 + (c.toNat - 48)) 0

/-- Identifier characters allowed in prerelease/build: `[0-9a-zA-Z-]`. -/
def isIdentChar (c : Char) : Bool := c.isAlphanum || c = '-'

/-- Semver numeric component: digits without leading zeros (`0|[1-9]\d*`). -/
def validNumeral (l : List Char) : Bool :=
  match l with
  | [] => false
  | ['0'] => true
  | c :: rest => c.isDigit && decide (c ≠ '0') && rest.all Char.isDigit

/-- Semver prerelease identifier: nonempty, `[0-9a-zA-Z-]`, and if purely
numeric then without leading zeros. -/
def validPreId (l : List Char) : Bool :=
  !l.isEmpty && l.all isIdentChar && (if l.all Char.isDigit then validNumeral l else true)

/-- Semver build identifier: nonempty over `[0-9a-zA-Z-]`. -/
def validBuildId (l : List Char) : Bool := !l.isEmpty && l.all isIdentChar

/-- Core of python-semver's anchored parse regex, over characters: split off
build metadata at the first `+`, prerelease at the first `-` before that, and
require a three-component dotted numeric core. -/
def parseSemverChars (l : List Char) : Option Version :=
  let bp := breakOnChar '+' l
  let cp := breakOnChar '-' bp.1
  match splitOnChar '.' cp.1 with
  | [ma, mi, pa] =>
    if validNumeral ma && validNumeral mi && validNumeral pa then
      let preOk := match cp.2 with
        | none => true
        | some p => (splitOnChar '.' p).all validPreId
      let buildOk := match bp.2 with
        | none => true
        | some b => (splitOnChar '.' b).all validBuildId
      if preOk && buildOk then
        some ⟨decodeNat ma, decodeNat mi, decodeNat pa, cp.2.map String.mk, bp.2.map String.mk⟩
      else none
    else none
  | _ => none

/-- python-semver `Version.parse`: on failure raises
`ValueError(f"{version} is not valid SemVer string")`, which the spec's
section 7 taxonomy classifies as InvalidRangeError (unparseable version text). -/
def Version.parse (version : String) : Except Err Version :=
  match parseSemverChars version.data with
  | some v => Except.ok v
  | none => Except.error (Err.invalidRange (version ++ " is not valid SemVer string"))

/-- python-semver `Version.__str__`. -/
def Version.str (v : Version) : String :=
  toString v.major ++ "." ++ toString v.minor ++ "." ++ toString v.patch
    ++ (match v.prerelease with
        | some p => if p = "" then "" else "-" ++ p
        | none => "")
    ++ (match v.build with
        | some b => if b = "" then "" else "+" ++ b
        | none => "")

/-- State machine locating the last maximal digit run of a string, as
python-semver's `_LAST_NUMBER` regex search does: returns its half-open
character span. -/
def lastRunGo : List Char → Nat → Option Nat → Option (Nat × Nat) → Option (Nat × Nat)
  | [], pos, some st, _ => some (st, pos)
  | [], _, none, best => best
  | c :: rest, pos, cur, best =>
    if c.isDigit then lastRunGo rest (pos + 1) (some (cur.getD pos)) best
    else
      match cur with
      | some st => lastRunGo rest (pos + 1) none (some (st, pos))
      | none => lastRunGo rest (pos + 1) none best

/-- Span of the last maximal digit run of a character list, if any. -/
def lastDigitRun (l : List Char) : Option (Nat × Nat) := lastRunGo l 0 none none

/-- python-semver `_increment_string`: increment the last run of digits in a
string, keeping the prefix (`"build.0" -> "build.1"`, `"b0009" -> "b0010"`);
strings without digits are returned unchanged. -/
def increment_string (s : String) : String :=
  match lastDigitRun s.data with
  | none => s
  | some (st, en) =>
    let digits := (s.data.drop st).take (en - st)
    let next := toString (decodeNat digits + 1)
    String.mk ((s.data.take (max (en - next.data.length) st)) ++ next.data ++ s.data.drop en)

/-- python-semver `bump_minor`: increment minor, reset patch, drop
prerelease and build. -/
def Version.bump_minor (v : Version) : Version := ⟨v.major, v.minor + 1, 0, none, none⟩

/-- python-semver `bump_patch`: increment patch, drop prerelease and build. -/
def Version.bump_patch (v : Version) : Version := ⟨v.major, v.minor, v.patch + 1, none, none⟩

/-- python-semver `bump_build` with the default token:
`_increment_string(build or "build.0")`, keeping major/minor/patch/prerelease. -/
def Version.bump_build (v : Version) : Version :=
  ⟨v.major, v.minor, v.patch, v.prerelease, some (increment_string (pyOrStr v.build ("build" ++ ".0")))⟩

/-- python-semver `bump_prerelease` with the default token:
`_increment_string(prerelease or "rc.0")`, dropping build. -/
def Version.bump_prerelease (v : Version) : Version :=
  ⟨v.major, v.minor, v.patch, some (increment_string (pyOrStr v.prerelease ("rc" ++ ".0"))), none⟩

/-- Lexicographic comparison of character lists (Python `str` comparison,
by code point). -/
def cmpCharList : List Char → List Char → Ordering
  | [], [] => Ordering.eq
  | [], _ :: _ => Ordering.lt
  | _ :: _, [] => Ordering.gt
  | a :: xs, b :: ys => (compare a b).then (cmpCharList xs ys)

/-- Purely numeric prerelease identifier test (`^[0-9]+$`). -/
def isNumericId (l : List Char) : Bool := !l.isEmpty && l.all Char.isDigit

/-- Semver precedence on one prerelease identifier pair: numeric identifiers
compare as integers and sort below alphanumeric ones. -/
def cmpPreId (a b : List Char) : Ordering :=
  if isNumericId a && isNumericId b then compare (decodeNat a) (decodeNat b)
  else if isNumericId a then Ordering.lt
  else if isNumericId b then Ordering.gt
  else cmpCharList a b

/-- Elementwise semver precedence on dot-split prerelease identifier lists;
a strict prefix sorts first. -/
def cmpPreList : List (List Char) → List (List Char) → Ordering
  | [], [] => Ordering.eq
  | [], _ :: _ => Ordering.lt
  | _ :: _, [] => Ordering.gt
  | a :: xs, b :: ys => (cmpPreId a b).then (cmpPreList xs ys)

/-- python-semver `compare`: numeric triple first, then prerelease precedence
(a version without prerelease is greater); build metadata is ignored. -/
def Version.cmp (a b : Version) : Ordering :=
  (compare a.major b.major).then
    ((compare a.minor b.minor).then
      ((compare a.patch b.patch).then
        (match a.prerelease, b.prerelease with
         | none, none => Ordering.eq
         | none, some _ => Ordering.gt
         | some _, none => Ordering.lt
         | some p, some q => cmpPreList (splitOnChar '.' p.data) (splitOnChar '.' q.data))))

/-! ## find_pessimistic_upper_bound (version_specifier.py lines 26-51) -/

/-- Python tuple slot value: the `to_tuple` slots are three ints and two
optional strings. -/
inductive PyVal where
  | vnat (n : Nat)
  | vopt (o : Option String)
deriving DecidableEq, Repr

/-- python-semver `to_tuple`: `(major, minor, patch, prerelease, build)`. -/
def to_tuple (v : Version) : List PyVal :=
  [PyVal.vnat v.major, PyVal.vnat v.minor, PyVal.vnat v.patch,
   PyVal.vopt v.prerelease, PyVal.vopt v.build]

/-- Python truthiness of a tuple slot: `0`, `None` and `""` are falsy. -/
def pyTruthy : PyVal → Bool
  | PyVal.vnat n => n != 0
  | PyVal.vopt o => !falsyOpt o

/-- Python `t[i]` on a tuple: raises IndexError when out of bounds. -/
def pyTupleIndex (t : List PyVal) (i : Nat) : Except Err PyVal :=
  match t.get? i with
  | some x => Except.ok x
  | none => Except.error (Err.indexError "tuple index out of range")

/-- The source's `index_method` dict call `index_method[index]()`:
0 bumps build, 1 bumps minor, 2 bumps patch, 3 bumps prerelease; any other
key would raise KeyError (unreachable behind the `index > 3` guard). -/
def bumpAt (v : Version) : Nat → Except Err String
  | 0 => Except.ok (Version.str (Version.bump_build v))
  | 1 => Except.ok (Version.str (Version.bump_minor v))
  | 2 => Except.ok (Version.str (Version.bump_patch v))
  | 3 => Except.ok (Version.str (Version.bump_prerelease v))
  | _ => Except.error (Err.keyError "index not in index_method")

/-- Body of `for index, value in enumerate(version_tuple)` in
`find_pessimistic_upper_bound`, iterating over the remaining indices:
first the `index > 3` ValueError guard (the message keeps the source's
"pessismistic" typo), then the `not version_tuple[index + 2]` test (which
raises IndexError past the end of the 5-tuple), returning the bumped version
string at the first falsy slot.  Falling off the loop returns Python `None`. -/
def pessimistic_loop (version_string : String) (v : Version) : List Nat → Except Err (Option String)
  | [] => Except.ok none
  | i :: rest =>
    if i > 3 then
      Except.error (Err.noPessimisticBound
        ("No pessismistic upper bound exists for the provided version " ++ version_string))
    else
      match pyTupleIndex (to_tuple v) (i + 2) with
      | Except.error e => Except.error e
      | Except.ok x =>
        if pyTruthy x then pessimistic_loop version_string v rest
        else
          match bumpAt v i with
          | Except.ok r => Except.ok (some r)
          | Except.error e => Except.error e

/-- Embedding of `find_pessimistic_upper_bound`: parse the version with
python-semver, then scan the tuple indices in order. -/
def find_pessimistic_upper_bound (version_string : String) : Except Err (Option String) :=
  match Version.parse version_string with
  | Except.error e => Except.error e
  | Except.ok version_obj =>
    pessimistic_loop version_string version_obj (List.range (to_tuple version_obj).length)

/-! ## VersionRange (external-capability boundary, modelled from the spec) -/

/-- Comparison operators of a primitive range; `exact` is the default when no
operator prefixes the expression (spec sections 4.2 and 9). -/
inductive Op where
  | eq
  | ne
  | lt
  | le
  | gt
  | ge
  | exact
deriving DecidableEq, Repr

/-- Modelled from the spec: `universal_versions.version_range.VersionRange` is
not in src/; per the spec (sections 3 and 4.2) it is an immutable value
(scheme, operator, bound version).  It is an ordinary object, not a `str`. -/
structure VersionRange where
  scheme : String
  op : Op
  version : Version
deriving DecidableEq, Repr

/-- Leading-operator parse for a range expression: two-character operators
first, then one-character ones, defaulting to exact match. -/
def splitOperator (l : List Char) : Op × List Char :=
  match l with
  | '>' :: '=' :: rest => (Op.ge, rest)
  | '<' :: '=' :: rest => (Op.le, rest)
  | '=' :: '=' :: rest => (Op.eq, rest)
  | '!' :: '=' :: rest => (Op.ne, rest)
  | '>' :: rest => (Op.gt, rest)
  | '<' :: rest => (Op.lt, rest)
  | _ => (Op.exact, l)

/-- Modelled from the spec (section 4.2): construct a VersionRange from a
textual expression and a scheme; unrecognized operators leave the text to the
version parser, and an unparseable version or unsupported scheme fails with
InvalidRangeError.  Only the semver scheme's external version parser is
modelled; other schemes are rejected by the capability. -/
def VersionRange.fromString (version_range_string scheme : String) : Except Err VersionRange :=
  if scheme = "semver" then
    match Version.parse (String.mk (splitOperator version_range_string.data).2) with
    | Except.ok v => Except.ok ⟨scheme, (splitOperator version_range_string.data).1, v⟩
    | Except.error e => Except.error e
  else
    Except.error (Err.invalidRange (scheme ++ " is not a supported versioning scheme"))

/-- Modelled from the spec (section 4.2): `version in version_range` for an
already-parsed version compares it against the bound version with the
operator's standard ordering semantics (semver precedence). -/
def VersionRange.contains (r : VersionRange) (v : Version) : Bool :=
  match r.op with
  | Op.eq => Version.cmp v r.version == Ordering.eq
  | Op.exact => Version.cmp v r.version == Ordering.eq
  | Op.ne => Version.cmp v r.version != Ordering.eq
  | Op.lt => Version.cmp v r.version == Ordering.lt
  | Op.le => Version.cmp v r.version != Ordering.gt
  | Op.gt => Version.cmp v r.version == Ordering.gt
  | Op.ge => Version.cmp v r.version != Ordering.lt

/-! ## normalized_pessimistic_ranges (lines 54-73) -/

/-- Lines 70-73 of the source, applied to the version operand obtained from
the split: compute the pessimistic upper bound, then build the `>=` lower and
`<` upper VersionRange pair under the semver scheme (the upper bound is
rendered through an f-string, so a fallen-through `None` would print as
"None"). -/
def pessimistic_body (version : String) : Except Err (VersionRange × VersionRange) :=
  match find_pessimistic_upper_bound version with
  | Except.error e => Except.error e
  | Except.ok upper_bound =>
    match VersionRange.fromString (">=" ++ version) "semver" with
    | Except.error e => Except.error e
    | Except.ok lower_range =>
      match VersionRange.fromString ("<" ++ pyFormatOpt upper_bound) "semver" with
      | Except.error e => Except.error e
      | Except.ok upper_range => Except.ok (lower_range, upper_range)

/-- Embedding of `normalized_pessimistic_ranges`.  The source's call
`remove_spaces(...)` on line 62 discards its result, so it has no effect and
is omitted.  `_, version = s.split("~>")` succeeds exactly when the split has
two pieces; otherwise the unpacking ValueError is re-raised as the
"not valid" error (InvalidRangeError in the spec's taxonomy). -/
def normalized_pessimistic_ranges (pessimistic_version_range_string : String) :
    Except Err (VersionRange × VersionRange) :=
  match splitTok pessimistic_version_range_string with
  | [_, version] => pessimistic_body version
  | _ =>
    Except.error (Err.invalidRange
      ("The version range string " ++ pessimistic_version_range_string ++ " is not valid"))

/-! ## VersionSpecifier (lines 76-138) -/

/-- A VersionSpecifier: a scheme plus the ordered ranges accumulated during
construction. -/
structure VersionSpecifier where
  scheme : String
  ranges : List VersionRange
deriving DecidableEq, Repr

/-- The `for version_range in version_ranges` loop of
`from_scheme_version_spec_string`: under the semver scheme an expression
containing `~>` contributes the two pessimistic ranges, every other
expression is parsed as one primitive range. -/
def scheme_ranges (scheme : String) : List String → Except Err (List VersionRange)
  | [] => Except.ok []
  | e :: rest =>
    if scheme = "semver" ∧ hasTok e = true then
      match normalized_pessimistic_ranges e with
      | Except.error err => Except.error err
      | Except.ok p =>
        match scheme_ranges scheme rest with
        | Except.error err => Except.error err
        | Except.ok rs => Except.ok (p.1 :: p.2 :: rs)
    else
      match VersionRange.fromString e scheme with
      | Except.error err => Except.error err
      | Except.ok r =>
        match scheme_ranges scheme rest with
        | Except.error err => Except.error err
        | Except.ok rs => Except.ok (r :: rs)

/-- Embedding of `VersionSpecifier.from_scheme_version_spec_string`: strip
whitespace, split on commas, accumulate the ranges, and store scheme and
ranges on a fresh specifier. -/
def VersionSpecifier.from_scheme_version_spec_string (scheme value : String) :
    Except Err VersionSpecifier :=
  match scheme_ranges scheme (pySplitChar (remove_spaces value) ',') with
  | Except.ok rs => Except.ok ⟨scheme, rs⟩
  | Except.error e => Except.error e

/-- Scheme part of a specifier string: `partition(":")` head (the whole
string when no colon is present). -/
def schemeOf (s : String) : String := (pyPartition s ':').1

/-- Remainder of a specifier string after the first colon (empty when no
colon is present), matching `partition(":")`'s third component. -/
def remainderOf (s : String) : String :=
  match (pyPartition s ':').2 with
  | some t => t
  | none => ""

/-- Embedding of `VersionSpecifier.from_version_spec_string`: partition on the
first colon; an empty scheme or an empty remainder raises the corresponding
ValueError (MalformedSpecifierError in the spec's taxonomy). -/
def VersionSpecifier.from_version_spec_string (version_spec_string : String) :
    Except Err VersionSpecifier :=
  let scheme := schemeOf version_spec_string
  let version_range_expressions := remainderOf version_spec_string
  if scheme = "" then
    Except.error (Err.malformedSpecifier (version_spec_string ++ " is not prefixed by scheme"))
  else if version_range_expressions = "" then
    Except.error (Err.malformedSpecifier (version_spec_string ++ " contains no version range"))
  else
    VersionSpecifier.from_scheme_version_spec_string scheme version_range_expressions

/-- Embedding of `VersionSpecifier.__str__`: the source evaluates
`",".join(self.ranges)` on the list of VersionRange objects.  CPython's
`str.join` requires every item to be a `str` instance and raises TypeError at
the first item otherwise; with an empty list it returns `""`. -/
def VersionSpecifier.str (vs : VersionSpecifier) : Except Err String :=
  match vs.ranges with
  | [] => Except.ok (vs.scheme ++ ":")
  | _ :: _ =>
    Except.error (Err.typeError "sequence item 0: expected str instance, VersionRange found")

/-- Modelled from the spec: `universal_versions.versions.parse_version` is not
in src/; per the spec (sections 4.4 and 6) it parses a scheme-prefixed version
string through the external per-scheme capability, and its failures surface
as the propagated version-parse error.  Only the semver scheme is modelled. -/
def parse_version (version : String) : Except Err Version :=
  let p := pyPartition version ':'
  match p.2 with
  | some rest =>
    if p.1 = "semver" then Version.parse rest
    else Except.error (Err.versionParse (p.1 ++ " is not a supported versioning scheme"))
  | none => Except.error (Err.versionParse (version ++ " is not a scheme-prefixed version string"))

/-- Argument of `VersionSpecifier.__contains__`: a Version object or a
scheme-prefixed version string. -/
inductive PyVersionArg where
  | str (s : String)
  | ver (v : Version)
deriving DecidableEq, Repr

/-- Embedding of `VersionSpecifier.__contains__`: strings are parsed first via
`parse_version`, then `all([version in version_range for ...])`. -/
def VersionSpecifier.contains (vs : VersionSpecifier) (arg : PyVersionArg) : Except Err Bool :=
  match arg with
  | PyVersionArg.str s =>
    (match parse_version s with
     | Except.ok v => Except.ok (vs.ranges.all fun r => VersionRange.contains r v)
     | Except.error e => Except.error e)
  | PyVersionArg.ver v => Except.ok (vs.ranges.all fun r => VersionRange.contains r v)

/-- Resolution of a `__contains__` argument to a Version value: the string
case is parsed first, a Version value is used as is. -/
def resolveArg : PyVersionArg → Except Err Version
  | PyVersionArg.str s => parse_version s
  | PyVersionArg.ver v => Except.ok v

/-- Does `s.split("~>")` yield exactly one pre/post pair with a nonempty
version operand, i.e. is the token present exactly once in a form that gives
a nonempty operand. -/
def splitYieldsNonemptyOperand (s : String) : Bool :=
  match splitTok s with
  | [_, v] => !(v == "")
  | _ => false

/-! ## Helper lemmas -/

theorem splitTokChars_no_tok : ∀ l : List Char, hasTokChars l = false → splitTokChars l = [l]
  | [], _ => rfl
  | [_], _ => rfl
  | c1 :: c2 :: rest, h => by
    have hc : (decide (c1 = '~') && decide (c2 = '>')) = false ∧ hasTokChars (c2 :: rest) = false := by
      simpa [hasTokChars] using h
    rw [splitTokChars, if_neg (by simp [hc.1]), splitTokChars_no_tok (c2 :: rest) hc.2]
    rfl

theorem splitTokChars_append_tok :
    ∀ p v : List Char, hasTokChars p = false →
      splitTokChars (p ++ '~' :: '>' :: v) = p :: splitTokChars v
  | [], v, _ => by
    rw [List.nil_append, splitTokChars, if_pos (by simp)]
  | [c], v, _ => by
    rw [List.cons_append, List.nil_append, splitTokChars, if_neg (by simp),
      splitTokChars, if_pos (by simp)]
    rfl
  | c1 :: c2 :: p, v, h => by
    have hc : (decide (c1 = '~') && decide (c2 = '>')) = false ∧ hasTokChars (c2 :: p) = false := by
      simpa [hasTokChars] using h
    rw [List.cons_append, List.cons_append, splitTokChars, if_neg (by simp [hc.1])]
    rw [show c2 :: (p ++ '~' :: '>' :: v) = (c2 :: p) ++ '~' :: '>' :: v from rfl]
    rw [splitTokChars_append_tok (c2 :: p) v hc.2]
    rfl

theorem splitTok_append_tok (p v : String) (hp : hasTok p = false) (hv : hasTok v = false) :
    splitTok (p ++ "~>" ++ v) = [p, v] := by
  unfold splitTok
  have hd : (p ++ "~>" ++ v).data = p.data ++ '~' :: '>' :: v.data := by
    rw [String.data_append, String.data_append]
    simp [List.append_assoc]
  rw [hd, splitTokChars_append_tok p.data v.data hp, splitTokChars_no_tok v.data hv]
  rfl

theorem normalized_of_splitTok (s pre version : String) (h : splitTok s = [pre, version]) :
    normalized_pessimistic_ranges s = pessimistic_body version := by
  unfold normalized_pessimistic_ranges
  rw [h]

/-- Classification helper: is an error the MalformedSpecifierError kind. -/
def Err.isMalformed : Err → Bool
  | Err.malformedSpecifier _ => true
  | _ => false

theorem version_parse_not_malformed (s : String) (e : Err) (h : Version.parse s = Except.error e) :
    e.isMalformed = false := by
  unfold Version.parse at h
  cases hp : parseSemverChars s.data <;> rw [hp] at h
  · cases h
    rfl
  · cases h

theorem bumpAt_not_malformed (v : Version) (i : Nat) (e : Err) (h : bumpAt v i = Except.error e) :
    e.isMalformed = false := by
  match i with
  | 0 => cases h
  | 1 => cases h
  | 2 => cases h
  | 3 => cases h
  | n + 4 =>
    rw [show bumpAt v (n + 4) = Except.error (Err.keyError "index not in index_method") from rfl] at h
    cases h
    rfl

theorem pessimistic_loop_not_malformed (s : String) (v : Version) :
    ∀ (l : List Nat) (e : Err), pessimistic_loop s v l = Except.error e → e.isMalformed = false := by
  intro l
  induction l with
  | nil => intro e h; cases h
  | cons i rest ih =>
    intro e h
    unfold pessimistic_loop at h
    split at h
    · cases h
      rfl
    · cases hx : pyTupleIndex (to_tuple v) (i + 2) <;> rw [hx] at h
      · cases h
        unfold pyTupleIndex at hx
        cases hg : (to_tuple v).get? (i + 2) <;> rw [hg] at hx
        · cases hx
          rfl
        · cases hx
      · rename_i x
        dsimp only at h
        by_cases ht : pyTruthy x = true
        · rw [if_pos ht] at h
          exact ih e h
        · rw [if_neg ht] at h
          cases hb : bumpAt v i <;> rw [hb] at h
          · cases h
            exact bumpAt_not_malformed v i _ hb
          · cases h

theorem find_pessimistic_not_malformed (s : String) (e : Err)
    (h : find_pessimistic_upper_bound s = Except.error e) : e.isMalformed = false := by
  unfold find_pessimistic_upper_bound at h
  cases hp : Version.parse s <;> rw [hp] at h
  · cases h
    exact version_parse_not_malformed s _ hp
  · exact pessimistic_loop_not_malformed s _ _ e h

theorem fromString_not_malformed (t scheme : String) (e : Err)
    (h : VersionRange.fromString t scheme = Except.error e) : e.isMalformed = false := by
  unfold VersionRange.fromString at h
  split at h
  · cases hp : Version.parse (String.mk (splitOperator t.data).2) <;> rw [hp] at h
    · cases h
      exact version_parse_not_malformed _ _ hp
    · cases h
  · cases h
    rfl

theorem pessimistic_body_not_malformed (t : String) (e : Err)
    (h : pessimistic_body t = Except.error e) : e.isMalformed = false := by
  unfold pessimistic_body at h
  cases h1 : find_pessimistic_upper_bound t <;> rw [h1] at h
  · cases h
    exact find_pessimistic_not_malformed t _ h1
  · rename_i ub
    dsimp only at h
    cases h2 : VersionRange.fromString (">=" ++ t) "semver" <;> rw [h2] at h
    · cases h
      exact fromString_not_malformed _ _ _ h2
    · dsimp only at h
      cases h3 : VersionRange.fromString ("<" ++ pyFormatOpt ub) "semver" <;> rw [h3] at h
      · cases h
        exact fromString_not_malformed _ _ _ h3
      · cases h

theorem normalized_not_malformed (t : String) (e : Err)
    (h : normalized_pessimistic_ranges t = Except.error e) : e.isMalformed = false := by
  unfold normalized_pessimistic_ranges at h
  split at h
  · exact pessimistic_body_not_malformed _ e h
  · cases h
    rfl

theorem scheme_ranges_not_malformed (scheme : String) :
    ∀ (l : List String) (e : Err), scheme_ranges scheme l = Except.error e → e.isMalformed = false := by
  intro l
  induction l with
  | nil => intro e h; cases h
  | cons x rest ih =>
    intro e h
    unfold scheme_ranges at h
    split at h
    · cases h1 : normalized_pessimistic_ranges x <;> rw [h1] at h
      · cases h
        exact normalized_not_malformed x _ h1
      · cases h2 : scheme_ranges scheme rest <;> rw [h2] at h
        · cases h
          exact ih _ h2
        · cases h
    · cases h1 : VersionRange.fromString x scheme <;> rw [h1] at h
      · cases h
        exact fromString_not_malformed _ _ _ h1
      · cases h2 : scheme_ranges scheme rest <;> rw [h2] at h
        · cases h
          exact ih _ h2
        · cases h

theorem from_scheme_not_malformed (scheme value : String) (e : Err)
    (h : VersionSpecifier.from_scheme_version_spec_string scheme value = Except.error e) :
    e.isMalformed = false := by
  unfold VersionSpecifier.from_scheme_version_spec_string at h
  cases h1 : scheme_ranges scheme (pySplitChar (remove_spaces value) ',') <;> rw [h1] at h
  · cases h
    exact scheme_ranges_not_malformed scheme _ _ h1
  · cases h

/-- Contribution of one comma-separated range expression to the stored range
sequence: under the semver scheme an expression containing the `~>` token
contributes the two ranges of its successful pessimistic expansion, any other
expression contributes the one range of its successful primitive parse. -/
def rangeContribution (scheme e : String) (rs : List VersionRange) : Prop :=
  (scheme = "semver" ∧ hasTok e = true ∧
    ∃ r1 r2, normalized_pessimistic_ranges e = Except.ok (r1, r2) ∧ rs = [r1, r2])
  ∨ (¬ (scheme = "semver" ∧ hasTok e = true) ∧
    ∃ r, VersionRange.fromString e scheme = Except.ok r ∧ rs = [r])

theorem scheme_ranges_of_forall2 (scheme : String) :
    ∀ (exprs : List String) (rss : List (List VersionRange)),
      List.Forall₂ (rangeContribution scheme) exprs rss →
      scheme_ranges scheme exprs = Except.ok rss.flatten := by
  intro exprs rss h
  induction h with
  | nil => rfl
  | cons he ht ih =>
    rename_i e rs exprs2 rss2
    rcases he with ⟨hs, htok, r1, r2, hn, hrs⟩ | ⟨hc, r, hr, hrs⟩
    · subst hrs
      unfold scheme_ranges
      rw [if_pos ⟨hs, htok⟩, hn]
      dsimp only
      rw [ih]
      rfl
    · subst hrs
      unfold scheme_ranges
      rw [if_neg hc, hr]
      dsimp only
      rw [ih]
      rfl

theorem join_length_of_no_tok (scheme : String) :
    ∀ (exprs : List String) (rss : List (List VersionRange)),
      List.Forall₂ (rangeContribution scheme) exprs rss →
      (∀ e ∈ exprs, hasTok e = false) →
      rss.flatten.length = exprs.length := by
  intro exprs rss h
  induction h with
  | nil => intro; rfl
  | cons he ht ih =>
    rename_i e rs exprs2 rss2
    intro hall
    rcases he with ⟨hs, htok, r1, r2, hn, hrs⟩ | ⟨hc, r, hr, hrs⟩
    · have : hasTok e = false := hall e (by simp)
      rw [this] at htok
      cases htok
    · subst hrs
      have hlen := ih (fun x hx => hall x (by simp [hx]))
      simp [List.flatten, hlen]

/-- Closed form of the pessimistic upper-bound scan for a version accepted by
the parser: the loop returns at the first Python-falsy slot two positions
ahead (patch for index 0, prerelease for index 1, build for index 2), calling
the bump mapped to that index, and otherwise evaluates the out-of-range slot
`version_tuple[5]` at index 3, raising IndexError. -/
theorem find_pessimistic_closed_form (s : String) (v : Version)
    (h : Version.parse s = Except.ok v) :
    find_pessimistic_upper_bound s =
      (if v.patch = 0 then Except.ok (some (Version.str (Version.bump_build v)))
       else if falsyOpt v.prerelease = true then
         Except.ok (some (Version.str (Version.bump_minor v)))
       else if falsyOpt v.build = true then
         Except.ok (some (Version.str (Version.bump_patch v)))
       else Except.error (Err.indexError "tuple index out of range")) := by
  unfold find_pessimistic_upper_bound
  rw [h]
  dsimp only
  rw [show List.range (to_tuple v).length = [0, 1, 2, 3, 4] from rfl]
  by_cases h0 : v.patch = 0 <;> by_cases h1 : falsyOpt v.prerelease = true <;>
    by_cases h2 : falsyOpt v.build = true <;>
    simp [pessimistic_loop, pyTupleIndex, to_tuple, pyTruthy, bumpAt, h0, h1, h2]

/-- Does `find_pessimistic_upper_bound` fail with the no-pessimistic-bound
error on a given input. -/
def raisesNoPessimisticBound (s : String) : Bool :=
  match find_pessimistic_upper_bound s with
  | Except.error (Err.noPessimisticBound _) => true
  | _ => false

/-! ## Claim theorems -/

/-- Claim C1: for every VersionSpecifier and every version argument (a Version
value or a scheme-prefixed version string, the string case being parsed
first), the containment test returns true if and only if the version
satisfies every VersionRange in the specifier's stored sequence. -/
theorem contains_iff_satisfies_all_ranges (vs : VersionSpecifier) (arg : PyVersionArg) :
    VersionSpecifier.contains vs arg = Except.ok true ↔
      ∃ v, resolveArg arg = Except.ok v ∧
        ∀ r ∈ vs.ranges, VersionRange.contains r v = true := by
  cases arg with
  | str s =>
    cases hp : parse_version s with
    | error e => simp [VersionSpecifier.contains, resolveArg, hp]
    | ok v => simp [VersionSpecifier.contains, resolveArg, hp, List.all_eq_true]
  | ver v => simp [VersionSpecifier.contains, resolveArg, List.all_eq_true]

/-- Claim C2 counterexample: on "1.2.0" the first position whose value two
ahead is falsy is position 0 (the patch slot holds 0), but the code returns
the build-metadata bump "1.2.0+build.1", whose major/minor/patch equal the
input's: no structural component was incremented, contradicting the claimed
"increment the component at the current position and reset the
less-significant ones" (which would give "2.0.0", "1.3.0" or "1.2.1"). -/
theorem pessimistic_bound_no_component_increment_on_1_2_0 :
    find_pessimistic_upper_bound "1.2.0" = Except.ok (some "1.2.0+build.1")
    ∧ Version.parse "1.2.0+build.1" = Except.ok ⟨1, 2, 0, none, some "build.1"⟩
    ∧ (("1.2.0+build.1" : String) == "2.0.0") = false
    ∧ (("1.2.0+build.1" : String) == "1.3.0") = false
    ∧ (("1.2.0+build.1" : String) == "1.2.1") = false :=
  ⟨rfl, rfl, rfl, rfl, rfl⟩

/-- Claim C2 amended: for every accepted semver version string, the scan
checks positions 0, 1, 2 in order and stops at the first one whose value two
positions ahead in the 5-slot tuple (patch, prerelease, build respectively)
is Python-falsy (zero, None or empty); it then returns the bump mapped to
that index — the build-metadata bump at position 0 (major, minor and patch
unchanged), the minor bump at position 1 and the patch bump at position 2 —
and when no such position exists it raises IndexError at position 3. -/
theorem find_pessimistic_upper_bound_first_falsy_slot (s : String) (v : Version)
    (h : Version.parse s = Except.ok v) :
    find_pessimistic_upper_bound s =
      (if v.patch = 0 then Except.ok (some (Version.str (Version.bump_build v)))
       else if falsyOpt v.prerelease = true then
         Except.ok (some (Version.str (Version.bump_minor v)))
       else if falsyOpt v.build = true then
         Except.ok (some (Version.str (Version.bump_patch v)))
       else Except.error (Err.indexError "tuple index out of range")) :=
  find_pessimistic_closed_form s v h

/-- Witness for the amended claim C2 at the spec's worked example 2.0.8,
whose first falsy slot is prerelease (position 1), giving the minor bump
2.1.0. -/
theorem find_pessimistic_upper_bound_first_falsy_slot_witness :
    Version.parse "2.0.8" = Except.ok ⟨2, 0, 8, none, none⟩
    ∧ find_pessimistic_upper_bound "2.0.8" = Except.ok (some "2.1.0") :=
  ⟨rfl, Eq.trans (find_pessimistic_upper_bound_first_falsy_slot "2.0.8" ⟨2, 0, 8, none, none⟩ rfl) rfl⟩

/-- Claim C3: parsing the scheme-specific expression "~>2.0.8" under the
semver scheme yields exactly the two VersionRange values ">=2.0.8" and
"<2.1.0", both scoped to semver, in (lower, upper) order. -/
theorem pessimistic_2_0_8_yields_lower_upper_ranges :
    VersionSpecifier.from_scheme_version_spec_string "semver" "~>2.0.8" =
      Except.ok ⟨"semver", [⟨"semver", Op.ge, ⟨2, 0, 8, none, none⟩⟩,
                            ⟨"semver", Op.lt, ⟨2, 1, 0, none, none⟩⟩]⟩ := rfl

/-- Claim C4: on the maximally specific version "1.2.3-alpha+b1" (nonzero
patch, nonempty prerelease and build) the scan reaches index 3 and evaluates
`version_tuple[5]` on the 5-tuple, raising IndexError — not the
no-pessimistic-bound ValueError the claim (and the code's own dead
`index > 3` guard) expect; that ValueError is raised on no input at all. -/
theorem maximally_specific_version_raises_index_error :
    Version.parse "1.2.3-alpha+b1" = Except.ok ⟨1, 2, 3, some "alpha", some "b1"⟩
    ∧ find_pessimistic_upper_bound "1.2.3-alpha+b1" =
        Except.error (Err.indexError "tuple index out of range")
    ∧ ∀ s : String, raisesNoPessimisticBound s = false := by
  refine ⟨rfl, rfl, ?_⟩
  intro s
  unfold raisesNoPessimisticBound
  cases hp : Version.parse s with
  | error e =>
    unfold find_pessimistic_upper_bound
    rw [hp]
    unfold Version.parse at hp
    cases hq : parseSemverChars s.data <;> rw [hq] at hp
    · cases hp
      rfl
    · cases hp
  | ok v =>
    rw [find_pessimistic_closed_form s v hp]
    split_ifs <;> rfl

/-- Claim C5: when every comma-separated expression of the (whitespace-
stripped) value contributes its ranges successfully, the constructed
specifier stores exactly the concatenation of the contributions in input
order — one range per primitive expression, two per semver pessimistic
expression — so N purely primitive expressions yield exactly N stored
ranges. -/
theorem from_scheme_spec_accumulates_contributions (scheme value : String)
    (rss : List (List VersionRange))
    (h : List.Forall₂ (rangeContribution scheme) (pySplitChar (remove_spaces value) ',') rss) :
    VersionSpecifier.from_scheme_version_spec_string scheme value =
      Except.ok ⟨scheme, rss.flatten⟩
    ∧ ((∀ e ∈ pySplitChar (remove_spaces value) ',', hasTok e = false) →
        rss.flatten.length = (pySplitChar (remove_spaces value) ',').length) := by
  constructor
  · unfold VersionSpecifier.from_scheme_version_spec_string
    rw [scheme_ranges_of_forall2 scheme _ _ h]
  · intro hall
    exact join_length_of_no_tok scheme _ _ h hall

/-- Witness for claim C5 on "semver" and ">=1.0.0,~>2.0.8": the primitive
expression contributes one range and the pessimistic expression two, stored
in input order. -/
theorem from_scheme_spec_accumulates_contributions_witness :
    List.Forall₂ (rangeContribution "semver") [">=1.0.0", "~>2.0.8"]
        [[⟨"semver", Op.ge, ⟨1, 0, 0, none, none⟩⟩],
         [⟨"semver", Op.ge, ⟨2, 0, 8, none, none⟩⟩, ⟨"semver", Op.lt, ⟨2, 1, 0, none, none⟩⟩]]
    ∧ VersionSpecifier.from_scheme_version_spec_string "semver" ">=1.0.0,~>2.0.8" =
        Except.ok ⟨"semver", [⟨"semver", Op.ge, ⟨1, 0, 0, none, none⟩⟩,
                              ⟨"semver", Op.ge, ⟨2, 0, 8, none, none⟩⟩,
                              ⟨"semver", Op.lt, ⟨2, 1, 0, none, none⟩⟩]⟩ := by
  have hf : List.Forall₂ (rangeContribution "semver")
      (pySplitChar (remove_spaces ">=1.0.0,~>2.0.8") ',')
      [[⟨"semver", Op.ge, ⟨1, 0, 0, none, none⟩⟩],
       [⟨"semver", Op.ge, ⟨2, 0, 8, none, none⟩⟩, ⟨"semver", Op.lt, ⟨2, 1, 0, none, none⟩⟩]] := by
    refine List.Forall₂.cons ?_ (List.Forall₂.cons ?_ List.Forall₂.nil)
    · exact Or.inr ⟨by decide, ⟨"semver", Op.ge, ⟨1, 0, 0, none, none⟩⟩, rfl, rfl⟩
    · exact Or.inl ⟨rfl, rfl, ⟨"semver", Op.ge, ⟨2, 0, 8, none, none⟩⟩,
        ⟨"semver", Op.lt, ⟨2, 1, 0, none, none⟩⟩, rfl, rfl⟩
  exact ⟨hf, (from_scheme_spec_accumulates_contributions "semver" ">=1.0.0,~>2.0.8" _ hf).1⟩

/-- Claim C6 counterexample: ":abc" contains a ":" separator and its
remainder "abc" is nonempty, so by the claim's condition no
MalformedSpecifierError should occur, yet parsing fails with the
"not prefixed by scheme" MalformedSpecifierError because the scheme part is
empty. -/
theorem malformed_exactly_when_counterexample :
    (pyPartition ":abc" ':').2 = some "abc"
    ∧ remainderOf ":abc" = "abc"
    ∧ (("abc" : String) == "") = false
    ∧ VersionSpecifier.from_version_spec_string ":abc" =
        Except.error (Err.malformedSpecifier ":abc is not prefixed by scheme") :=
  ⟨rfl, rfl, rfl, rfl⟩

/-- Claim C6 amended: parsing a full specifier string fails with
MalformedSpecifierError exactly when the scheme part before the first ":" is
empty or the remainder after it is empty (a string without ":" has an empty
remainder); in particular parse("novalue") raises MalformedSpecifierError. -/
theorem malformed_specifier_iff_empty_scheme_or_empty_remainder :
    (∀ s : String,
      (∃ m, VersionSpecifier.from_version_spec_string s =
          Except.error (Err.malformedSpecifier m)) ↔
        (schemeOf s = "" ∨ remainderOf s = ""))
    ∧ VersionSpecifier.from_version_spec_string "novalue" =
        Except.error (Err.malformedSpecifier "novalue contains no version range") := by
  constructor
  · intro s
    unfold VersionSpecifier.from_version_spec_string
    by_cases h1 : schemeOf s = ""
    · rw [if_pos h1]
      simp [h1]
    · rw [if_neg h1]
      by_cases h2 : remainderOf s = ""
      · rw [if_pos h2]
        simp [h2]
      · rw [if_neg h2]
        constructor
        · rintro ⟨m, hm⟩
          have := from_scheme_not_malformed _ _ _ hm
          simp [Err.isMalformed] at this
        · rintro (h | h)
          · exact absurd h h1
          · exact absurd h h2
  · rfl

/-- Claim C7: the pessimistic expansion splits its input on the literal
token "~>", and whenever the token is not present exactly once in a form
yielding a nonempty version operand the expansion fails with an
InvalidRangeError (either the re-raised unpacking error, or — for an empty
operand — the version parser's rejection of ""). -/
theorem pessimistic_bad_split_fails_invalid_range (s : String)
    (h : splitYieldsNonemptyOperand s = false) :
    ∃ m, normalized_pessimistic_ranges s = Except.error (Err.invalidRange m) := by
  unfold splitYieldsNonemptyOperand at h
  rcases hs : splitTok s with _ | ⟨a, _ | ⟨b, _ | ⟨c, t⟩⟩⟩
  · unfold normalized_pessimistic_ranges
    rw [hs]
    exact ⟨_, rfl⟩
  · unfold normalized_pessimistic_ranges
    rw [hs]
    exact ⟨_, rfl⟩
  · rw [hs] at h
    dsimp only at h
    simp only [Bool.not_eq_false', beq_iff_eq] at h
    subst h
    unfold normalized_pessimistic_ranges
    rw [hs]
    exact ⟨" is not valid SemVer string", rfl⟩
  · unfold normalized_pessimistic_ranges
    rw [hs]
    exact ⟨_, rfl⟩

/-- Witness for claim C7 at the expression "~>", whose split yields an empty
version operand. -/
theorem pessimistic_bad_split_fails_invalid_range_witness :
    splitYieldsNonemptyOperand "~>" = false
    ∧ ∃ m, normalized_pessimistic_ranges "~>" = Except.error (Err.invalidRange m) :=
  ⟨rfl, pessimistic_bad_split_fails_invalid_range "~>" rfl⟩

/-- Claim C8: a validly constructed specifier is built from "semver:>=1.0.0",
but rendering it applies `",".join` to VersionRange objects, which raises
TypeError instead of returning "semver:>=1.0.0". -/
theorem canonical_string_raises_type_error :
    VersionSpecifier.from_version_spec_string "semver:>=1.0.0" =
      Except.ok ⟨"semver", [⟨"semver", Op.ge, ⟨1, 0, 0, none, none⟩⟩]⟩
    ∧ VersionSpecifier.str ⟨"semver", [⟨"semver", Op.ge, ⟨1, 0, 0, none, none⟩⟩]⟩ =
        Except.error (Err.typeError "sequence item 0: expected str instance, VersionRange found") :=
  ⟨rfl, rfl⟩

/-- Claim C9: containment is monotonic under AND — if a version is contained
in the specifier obtained by appending one more range, it is contained in the
original specifier. -/
theorem contains_monotonic_under_append (vs : VersionSpecifier) (r : VersionRange)
    (arg : PyVersionArg)
    (h : VersionSpecifier.contains ⟨vs.scheme, vs.ranges ++ [r]⟩ arg = Except.ok true) :
    VersionSpecifier.contains vs arg = Except.ok true := by
  cases arg with
  | str s =>
    cases hp : parse_version s with
    | error e => simp [VersionSpecifier.contains, hp] at h
    | ok v =>
      simp [VersionSpecifier.contains, hp, List.all_append, Bool.and_eq_true] at h ⊢
      exact h.1
  | ver v =>
    simp [VersionSpecifier.contains, List.all_append, Bool.and_eq_true] at h ⊢
    exact h.1

/-- Witness for claim C9: 1.5.0 is contained in the extended specifier
">=1.0.0,<2.0.0", hence in the smaller one ">=1.0.0". -/
theorem contains_monotonic_under_append_witness :
    VersionSpecifier.contains
        ⟨"semver", [⟨"semver", Op.ge, ⟨1, 0, 0, none, none⟩⟩] ++
          [⟨"semver", Op.lt, ⟨2, 0, 0, none, none⟩⟩]⟩
        (PyVersionArg.ver ⟨1, 5, 0, none, none⟩) = Except.ok true
    ∧ VersionSpecifier.contains ⟨"semver", [⟨"semver", Op.ge, ⟨1, 0, 0, none, none⟩⟩]⟩
        (PyVersionArg.ver ⟨1, 5, 0, none, none⟩) = Except.ok true :=
  ⟨rfl, contains_monotonic_under_append ⟨"semver", [⟨"semver", Op.ge, ⟨1, 0, 0, none, none⟩⟩]⟩
    ⟨"semver", Op.lt, ⟨2, 0, 0, none, none⟩⟩ (PyVersionArg.ver ⟨1, 5, 0, none, none⟩) rfl⟩

/-- Claim C10: any text before the "~>" token is silently discarded — for a
prefix P and a version text V neither containing the token, expanding
P ++ "~>" ++ V gives exactly the same result as expanding "~>" ++ V. -/
theorem pessimistic_prefix_before_token_ignored (p v : String)
    (hp : hasTok p = false) (hv : hasTok v = false) :
    normalized_pessimistic_ranges (p ++ "~>" ++ v) =
      normalized_pessimistic_ranges ("~>" ++ v) := by
  have h1 : splitTok (p ++ "~>" ++ v) = [p, v] := splitTok_append_tok p v hp hv
  have h2 : splitTok ("~>" ++ v) = ["", v] := splitTok_append_tok "" v rfl hv
  rw [normalized_of_splitTok _ _ _ h1, normalized_of_splitTok _ _ _ h2]

/-- Witness for claim C10 with prefix "foo" and version text "2.0.8". -/
theorem pessimistic_prefix_before_token_ignored_witness :
    hasTok "foo" = false ∧ hasTok "2.0.8" = false
    ∧ normalized_pessimistic_ranges ("foo" ++ "~>" ++ "2.0.8") =
        normalized_pessimistic_ranges ("~>" ++ "2.0.8") :=
  ⟨rfl, rfl, pessimistic_prefix_before_token_ignored "foo" "2.0.8" rfl rfl⟩

end UniversalVersions
